import Mathlib

/-!
Verification development for the unkeyed/marketing repository.

The repository is a Next.js marketing site plus a "generator" app whose
Trigger.dev tasks orchestrate AI calls, Exa web search and GitHub PR
automation.  This file gives a shallow embedding of the decision logic of
those tasks and of two UI components, and proves the stated properties.

Remote services (the database, the GitHub REST API, the Exa search API and
the hosted model APIs) are modelled as explicit inputs: a state record whose
fields hold the responses each call would return.  Each embedded task run
returns the list of calls it performed (its trace) together with its result,
so that statements about "no mutation happened" or "the search was not
issued" are statements about the trace.
-/

namespace Marketing

/-- Modelled from the spec: the `CacheStrategy` type is declared in
`_generate-glossary-entry.ts`, which is not among the sources; every task in
the sources only compares the strategy against the literal `"stale"`, so it
is modelled as a two-valued type with `stale` and a non-stale value. -/
inductive CacheStrategy where
  | stale
  | revalidate
deriving DecidableEq

/-- JavaScript truthiness of a nullable string column: `null`/`undefined`
and the empty string are falsy. -/
def optTruthy : Option String → Bool
  | some s => s != ""
  | none => false

/-! ## Blog pagination (`apps/www/components/blog/blog-pagination.tsx`)

`BlogPagination` renders a previous control, a run of numbered page links
with optional boundary pages and ellipses, and a next control.  The rendered
markup is modelled as a list of `PgItem`s in render order; `prevC`/`nextC`
carry whether the control is disabled and, when enabled, the page their link
targets. -/

inductive PgItem where
  | prevC (disabled : Bool) (target : Option Int)
  | page (n : Int) (active : Bool)
  | dotsStart
  | dotsEnd
  | nextC (disabled : Bool) (target : Option Int)
deriving DecidableEq

/-- The integer interval `[a, b]` in order, as produced by the
`for (let i = rangeStart; i <= rangeEnd; i++)` loop. -/
def pageWindow (a b : Int) : List Int :=
  (List.range (b + 1 - a).toNat).map (fun (k : Nat) => a + (k : Int))

/-- The `PageButtons` helper component of `BlogPagination`. -/
def pageButtons (currentPage numPages : Int) : List PgItem :=
  let rangeStart := max 1 (currentPage - 2)
  let rangeEnd := min numPages (currentPage + 2)
  (if rangeStart > 1 then
      [PgItem.page 1 false] ++ (if rangeStart > 2 then [PgItem.dotsStart] else [])
    else []) ++
  ((pageWindow rangeStart rangeEnd).map (fun i => PgItem.page i (currentPage == i))) ++
  (if rangeEnd < numPages then
      (if rangeEnd < numPages - 1 then [PgItem.dotsEnd] else []) ++ [PgItem.page numPages false]
    else [])

/-- The `BlogPagination` component: `none` models the early `return null`. -/
def blogPagination (currentPage numPages : Int) : Option (List PgItem) :=
  if numPages ≤ 1 then none
  else some (
    [if currentPage > 1 then
        PgItem.prevC false (some (max 1 (currentPage - 1)))
      else PgItem.prevC true none] ++
    pageButtons currentPage numPages ++
    [if currentPage < numPages then
        PgItem.nextC false (some (min numPages (currentPage + 1)))
      else PgItem.nextC true none])

/-! ## Client blog grid URL state (`apps/www/components/blog/client-blog-grid.tsx`)

`updateSearchParams` rewrites the query string from the current parameters
and the requested tag/page.  Query strings are modelled as ordered lists of
key-value pairs with the `URLSearchParams` `set`/`delete` semantics. -/

/-- `URLSearchParams.delete`: removes every pair with the given key. -/
def urlParamsDelete (k : String) (l : List (String × String)) : List (String × String) :=
  l.filter (fun p => p.1 != k)

/-- `URLSearchParams.set`: replaces the first pair with the given key and
drops the others, or appends when the key is absent. -/
def urlParamsSet (k v : String) : List (String × String) → List (String × String)
  | [] => [(k, v)]
  | p :: rest =>
    if p.1 = k then (k, v) :: urlParamsDelete k rest
    else p :: urlParamsSet k v rest

/-- The `newParams` argument of `updateSearchParams`. -/
structure NewParams where
  tag : Option String
  page : Option Int
deriving DecidableEq

/-- JavaScript truthiness of the requested page number: `undefined` and `0`
are falsy. -/
def pageTruthy : Option Int → Bool
  | some p => p != 0
  | none => false

/-- The `updateSearchParams` closure of `ClientBlogGrid` (the part that
computes the new query parameters; pushing the URL is routing glue). -/
def updateSearchParams (prev : List (String × String)) (np : NewParams) :
    List (String × String) :=
  let ps1 :=
    if optTruthy np.tag then urlParamsSet "tag" (np.tag.getD "") prev
    else urlParamsDelete "tag" prev
  if pageTruthy np.page && decide ((np.page.getD 0) > 1) then
    urlParamsSet "page" (toString (np.page.getD 0)) ps1
  else urlParamsDelete "page" ps1

/-- Whether a query-string model contains a parameter with the given key. -/
def hasKey (k : String) (l : List (String × String)) : Bool :=
  l.any (fun p => p.1 = k)

/-! ## Content evaluations (`generate/content/evaluations.ts`)

`reviewGenerationTask` fans out to `technicalReviewTask` and `seoReviewTask`
via `batch.triggerByTaskAndWait` and combines their outputs.  The two
sub-task runs are modelled as `Option EvalResult` inputs (`none` is a run
whose `r.ok` is false); the model-API internals of the sub-tasks themselves
are outside the combination logic. -/

inductive Severity where
  | error
  | warning
  | info
  | success
deriving DecidableEq

/-- The `improvementSchema` object. -/
structure Improvement where
  category : String
  message : String
  severity : Severity
  improvement : String
deriving DecidableEq

/-- The `evaluationResultSchema` object (the free-form `metadata` record is
not carried; no combination logic reads it). -/
structure EvalResult where
  score : ℚ
  passed : Bool
  summary : String
  reasoning : Option String
  improvements : List Improvement
  markdown : Option String
deriving DecidableEq

/-- Output shape of `reviewGenerationTask`. -/
structure ReviewOutput where
  technical : Option EvalResult
  seo : Option EvalResult
  passed : Bool
  summary : String
deriving DecidableEq

/-- Sub-task triggers issued by `reviewGenerationTask`. -/
inductive ReviewStep where
  | triggerTechnicalReview
  | triggerSeoReview
deriving DecidableEq

/-- JavaScript whitespace for the `\s` regex class (the characters that occur
in the template literal). -/
def isJsWs (c : Char) : Bool :=
  c == ' ' || c == '\n' || c == '\t' || c == '\r'

/-- `.replace(/\s+/g, " ")`: each maximal whitespace run becomes one space. -/
def collapseWs (s : String) : String :=
  ⟨(s.data.foldl
      (fun (acc : List Char × Bool) c =>
        if isJsWs c then (if acc.2 then acc else (acc.1 ++ [' '], true))
        else (acc.1 ++ [c], false))
      ([], false)).1⟩

/-- The summary template literal of `reviewGenerationTask`, after
`.trim().replace(/\s+/g, " ")`. -/
def reviewSummary (seo technical : Option EvalResult) : String :=
  collapseWs (String.trim
    ("\n      " ++
      (if (seo.map (·.passed)).getD false then "SEO passed." else "SEO did not pass.") ++
      "\n      " ++
      (if (technical.map (·.passed)).getD false then "Technical review passed."
        else "Technical review did not pass.") ++
      "\n    "))

/-- The `run` body of `reviewGenerationTask`.  `techRun`/`seoRun` are the
batch results for `technicalReviewTask` and `seoReviewTask` in batch order;
the destructuring `const [technical, seo] = runs.map(...).filter(Boolean)`
is embedded literally. -/
def reviewGenerationRun (term content : String)
    (techRun seoRun : Option EvalResult) :
    List ReviewStep × Except String ReviewOutput :=
  if term = "" ∨ content = "" then
    ([], .error "Term or content is empty")
  else
    let filtered := ([techRun, seoRun] : List (Option EvalResult)).filterMap id
    let technical := filtered[0]?
    let seo := filtered[1]?
    let passed := ((seo.map (·.passed)).getD false) && ((technical.map (·.passed)).getD false)
    ([.triggerTechnicalReview, .triggerSeoReview],
      .ok ⟨technical, seo, passed, String.trim (reviewSummary seo technical)⟩)

/-! ## Technical research (`research/technical/technical-research.ts` and
`research/technical/exa-domain-search.ts`)

`technicalResearchTask` fans out one `exaDomainSearchTask` per domain
category, merges and dedupes the results, has them evaluated, scrapes the
included URLs and persists the result.  Remote calls are modelled as inputs:
`searchRuns` holds the batch results (one per category, `none` for a failed
run), `evaluate` the output of the `evaluateSearchResults` task (its shape is
taken from its use sites; the task body itself is an AI call) and
`getContents` the Exa scraping response. -/

/-- A domain category from `exa-domain-search.ts`. -/
structure DomainCategory where
  name : String
  domains : List String
  description : String
deriving DecidableEq

def domainCategories : List DomainCategory :=
  [⟨"Official",
      ["tools.ietf.org", "datatracker.ietf.org", "rfc-editor.org", "w3.org", "iso.org"],
      "Official standards and specifications sources"⟩,
    ⟨"Community",
      ["stackoverflow.com", "github.com", "wikipedia.org", "news.ycombinator.com",
        "stackexchange.com"],
      "Community-driven platforms and forums"⟩,
    ⟨"Neutral",
      ["owasp.org", "developer.mozilla.org"],
      "Educational and vendor-neutral resources"⟩,
    ⟨"Google", [], "General search results without domain restrictions"⟩]

/-- An Exa search result as used by the research tasks: the fields the code
reads (`url`, `title`, `summary`, the scraped `text`) plus the custom
`category` appended by `exaDomainSearchTask` (carried as the category name;
an empty name models a record without the custom field). -/
structure ResearchItem where
  url : String
  title : String
  summary : String
  text : String
  categoryName : String
deriving DecidableEq

/-- The `TechnicalResearch` JSON column of the `entries` table. -/
structure TechnicalResearch where
  inputTerm : String
  summary : String
  included : List ResearchItem
  excluded : List ResearchItem
deriving DecidableEq

/-- Output shape of the `evaluateSearchResults` task, from its use sites in
`technical-research.ts`. -/
structure SearchEvaluation where
  evaluationSummary : String
  included : List ResearchItem
  excluded : List ResearchItem
deriving DecidableEq

/-- Remote calls performed by the research tasks. -/
inductive TRStep where
  | domainSearch (category : String)
  | warnFailedSearches (count : Nat)
  | evaluate (results : List ResearchItem)
  | scrape (urls : List String)
  | persist (research : TechnicalResearch)
deriving DecidableEq

/-- `searchResults.filter((result, index, self) => index === self.findIndex(t
=> t.url === result.url))`: keeps the first occurrence of each URL. -/
def dedupeByUrl (l : List ResearchItem) : List ResearchItem :=
  (l.enum.filter (fun p => l.findIdx (fun t => t.url == p.2.url) = p.1)).map (·.2)

/-- Object spread `{...contentResult, ...searchResult}` for an included item:
the search record (which carries summary, title and category but no scraped
text) overrides everything except the scraped `text`. -/
def spreadContent (r : ResearchItem) (found : Option ResearchItem) : ResearchItem :=
  match found with
  | some f => { f with text := r.text }
  | none => r

/-- The cache-hit test shared by both research tasks:
`existing?.technicalResearch?.included && included.length > 0 && onCacheHit
=== "stale"`. -/
def trCacheHit (existing : Option TechnicalResearch) (onCacheHit : CacheStrategy) : Bool :=
  match existing with
  | some tr => !tr.included.isEmpty && onCacheHit == .stale
  | none => false

/-- The output object built by `technicalResearchTask` from the evaluation
and the scraped contents (the db read after the write returns this value). -/
def researchOutput (inputTerm : String) (searchResults : List ResearchItem)
    (ev : SearchEvaluation) (contents : List ResearchItem) : TechnicalResearch :=
  { inputTerm := inputTerm
    summary := ev.evaluationSummary
    included := contents.map
      (fun r => spreadContent r (searchResults.find? (fun c => c.url == r.url)))
    excluded := ev.excluded.map
      (fun r => (searchResults.find? (fun c => c.url == r.url)).getD r) }

/-- The `run` body of `technicalResearchTask`. -/
def technicalResearchRun (existing : Option TechnicalResearch)
    (onCacheHit : CacheStrategy) (inputTerm : String)
    (searchRuns : List (Option (List ResearchItem)))
    (evaluate : List ResearchItem → Option SearchEvaluation)
    (getContents : List String → List ResearchItem) :
    List TRStep × Except String TechnicalResearch :=
  if trCacheHit existing onCacheHit then
    ([], .ok (existing.getD ⟨"", "", [], []⟩))
  else
    let searchSteps := domainCategories.map (fun c => TRStep.domainSearch c.name)
    let failedCount := (searchRuns.filter (·.isNone)).length
    let warnSteps := if failedCount > 0 then [TRStep.warnFailedSearches failedCount] else []
    let searchResults := (searchRuns.filterMap id).flatten
    let deduped := dedupeByUrl searchResults
    match evaluate deduped with
    | none =>
      (searchSteps ++ warnSteps ++ [TRStep.evaluate deduped],
        .error "Failed to evaluate search results")
    | some ev =>
      let urls := ev.included.map (·.url)
      let output := researchOutput inputTerm searchResults ev (getContents urls)
      (searchSteps ++ warnSteps ++
          [TRStep.evaluate deduped, TRStep.scrape urls, TRStep.persist output],
        .ok output)

/-- The `run` body of `exaDomainSearchTask`.  `searchResult` holds the Exa
response for this domain; the non-null assertion on the category lookup is
modelled with a default.  The db read after the write returns the written
value, so the "performed but not persisted" abort branch is dead here. -/
def exaDomainSearchRun (existing : Option TechnicalResearch)
    (onCacheHit : CacheStrategy) (domain : String)
    (searchResult : List ResearchItem) :
    List TRStep × Except String (List ResearchItem) :=
  if trCacheHit existing onCacheHit then
    ([], .ok ((existing.getD ⟨"", "", [], []⟩).included.filter
        (fun r => r.categoryName == domain)))
  else
    let domainCategory := (domainCategories.find? (fun c => c.name == domain)).getD
      ⟨domain, [], ""⟩
    let written : TechnicalResearch :=
      { inputTerm := ""
        summary := ""
        included := searchResult.map (fun r => { r with categoryName := domainCategory.name })
        excluded := [] }
    match (some written : Option TechnicalResearch) with
    | none =>
      ([TRStep.domainSearch domain, TRStep.persist written],
        .error "Technical research performed but not persisted to DB")
    | some u =>
      ([TRStep.domainSearch domain, TRStep.persist written],
        .ok (u.included.filter (fun r => r.categoryName == domain)))

/-! ## Glossary PR creation (`create-pr.ts`, two variants)

The repository holds two variants of `createPrTask`: the one in
`apps/generator /src/trigger/glossary/create-pr.ts` (embedded as
`createPrRun`), which inspects only the first relevant branch and aborts on
any failed mutation, and an earlier variant (embedded as `createPrRunP6`)
that processes every relevant branch with six switch cases and falls back to
the next branch on a failed mutation.

The MDX regeneration feeds GitHub a base64 string; base64 and UTF-8 are
implemented concretely so comparisons evaluate.  The `js-yaml` dump and the
`github-slugger` slug are external libraries, modelled by simple concrete
renderings; no property below depends on their exact output, only on equality
of the produced strings. -/

/-- UTF-8 bytes of a character (as `Buffer.from(mdxContent)` would produce). -/
def utf8Bytes (c : Char) : List Nat :=
  let n := c.toNat
  if n < 0x80 then [n]
  else if n < 0x800 then [0xC0 + n / 64, 0x80 + n % 64]
  else if n < 0x10000 then [0xE0 + n / 4096, 0x80 + (n / 64) % 64, 0x80 + n % 64]
  else [0xF0 + n / 262144, 0x80 + (n / 4096) % 64, 0x80 + (n / 64) % 64, 0x80 + n % 64]

def b64Char (n : Nat) : Char :=
  "ABCDEFGHIJKLMNOPQRSTUVWXYZabcdefghijklmnopqrstuvwxyz0123456789+/".data.getD n 'A'

/-- Standard base64 of a byte list, with padding. -/
def base64Bytes : List Nat → List Char
  | [] => []
  | [a] => [b64Char (a / 4), b64Char (a % 4 * 16), '=', '=']
  | [a, b] => [b64Char (a / 4), b64Char (a % 4 * 16 + b / 16), b64Char (b % 16 * 4), '=']
  | a :: b :: c :: rest =>
    [b64Char (a / 4), b64Char (a % 4 * 16 + b / 16), b64Char (b % 16 * 4 + c / 64),
      b64Char (c % 64)] ++ base64Bytes rest

/-- `Buffer.from(s).toString("base64")`. -/
def base64String (s : String) : String :=
  ⟨base64Bytes ((s.data.map utf8Bytes).flatten)⟩

/-- `.replace(/\n/g, "")` applied to the base64 content GitHub returns. -/
def stripNewlines (s : String) : String :=
  ⟨s.data.filter (fun c => c != '\n')⟩

/-- Model of the JS `String.prototype.startsWith` (the branch-name filter
`b.name.startsWith(branchPrefix)`). -/
def strStartsWith (s pre : String) : Bool :=
  s.data.take pre.data.length == pre.data

/-- ASCII lowercase of a character. -/
def lowerChar (c : Char) : Char :=
  if c.toNat ≥ 65 && c.toNat ≤ 90 then Char.ofNat (c.toNat + 32) else c

/-- Model of the `github-slugger` library: lowercase, spaces to dashes,
other punctuation stripped. -/
def githubSlug (s : String) : String :=
  ⟨((s.data.map lowerChar).map (fun c => if c == ' ' then '-' else c)).filter
      (fun c => c.isAlphanum || c == '-' || c == '_')⟩

/-- A row of the `entries` table, with the columns `createPrTask` reads.  The
JSON columns (`takeaways`, `faq`) are carried as serialized strings; a stored
JSON object is a truthy, non-empty serialization. -/
structure Entry where
  id : Nat
  inputTerm : String
  githubPrUrl : Option String
  dynamicSectionsContent : Option String
  metaTitle : Option String
  metaDescription : Option String
  metaH1 : Option String
  categories : List String
  takeaways : Option String
  faq : Option String
  updatedAt : String
deriving DecidableEq

/-- Model of the `js-yaml` dump of the front-matter object. -/
def yamlField (k : String) (v : Option String) : String :=
  k ++ ": " ++ (v.getD "null") ++ "\n"

def yamlDump (e : Entry) : String :=
  yamlField "title" e.metaTitle ++
  yamlField "description" e.metaDescription ++
  yamlField "h1" e.metaH1 ++
  yamlField "term" (some e.inputTerm) ++
  "categories: [" ++ String.intercalate ", " e.categories ++ "]\n" ++
  yamlField "takeaways" e.takeaways ++
  yamlField "faq" e.faq ++
  yamlField "updatedAt" (some e.updatedAt) ++
  yamlField "slug" (some (githubSlug e.inputTerm))

/-- `frontmatter + entry.dynamicSectionsContent` (the `getD` is guarded by
the truthiness check before any use). -/
def mdxContent (e : Entry) : String :=
  "---\n" ++ yamlDump e ++ "---\n" ++ (e.dynamicSectionsContent.getD "")

/-- A file as returned by `octokit.repos.getContent`: base64 `content`
(possibly with embedded newlines) and its blob `sha`. -/
structure GithubFile where
  content : String
  sha : String
deriving DecidableEq

structure PullRequest where
  htmlUrl : String
deriving DecidableEq

/-- The responses the GitHub API would give to each call the task makes.
`none` for a read is an errored call or a missing/non-file payload (the code
treats those alike); `none`/`false` for a mutation is a failed call. -/
structure GithubState where
  mainFile : Option GithubFile
  branchList : Option (List String)
  branchFile : String → Option GithubFile
  prList : String → Option (List PullRequest)
  createPull : String → Option PullRequest
  putFile : String → Bool
  baseRef : Option String
  createRefOk : Bool

/-- Calls performed by a `createPrTask` run, in order.  `logCase` records the
`caseKey` the run logs before its switch. -/
inductive PrStep where
  | readMainFile
  | listBranches
  | readBranchFile (branch : String)
  | listPulls (branch : String)
  | logCase (key : String)
  | getBaseRef
  | createBranch (name : String)
  | commitFile (branch : String)
  | openPull (branch : String)
  | dbSetPrUrl (url : String)
deriving DecidableEq

/-- A step that mutates GitHub: a created branch, a committed file, or an
opened pull request. -/
def isGithubMutation : PrStep → Bool
  | PrStep.createBranch _ => true
  | PrStep.commitFile _ => true
  | PrStep.openPull _ => true
  | _ => false

/-- Outcome of the `getContent`-and-compare block: whether the file exists,
whether its newline-stripped base64 equals the regenerated base64, its sha. -/
structure FileCompare where
  present : Bool
  identical : Bool
  sha : Option String
deriving DecidableEq

def fileCompare (file : Option GithubFile) (contentBase64 : String) : FileCompare :=
  match file with
  | some f => ⟨true, stripNewlines f.content == contentBase64, some f.sha⟩
  | none => ⟨false, false, none⟩

/-- `if (openPr && openPr.html_url) { await db.update(...) }`. -/
def dbSetIfTruthy (url : Option String) : List PrStep :=
  match url with
  | some s => if s != "" then [PrStep.dbSetPrUrl s] else []
  | none => []

/-- The `caseKey` template literal of the `apps/generator ` variant.  Note
that a missing branch file takes the `fileDiff-unchanged` arm of the nested
conditional. -/
def caseKeyOf (branchFileExists branchFileIsIdentical prExists : Bool) : String :=
  let branchExists := true
  (if branchExists then "branch-existant" else "branch-inexistant") ++ ":" ++
  (if branchFileIsIdentical then "fileDiff-unchanged"
    else if branchFileExists then "fileDiff-changed" else "fileDiff-unchanged") ++ ":" ++
  (if prExists then "pr-existant" else "pr-inexistant")

def noDynMsg (input : String) : String :=
  "Unable to create PR: The markdown content for the dynamic sections are not available for the entry to term: " ++
    input ++ ". It is likely that draft-sections.ts did not run as expected."

def noTakeawaysMsg (input : String) : String :=
  "Unable to create PR: The takeaways are not available for the entry to term: " ++
    input ++ ". It is likely that content-takeaways.ts did not run as expected."

/-- Section 7 of both variants: create a fresh branch from the base ref,
commit the file, open the PR, record the URL; abort on any failure. -/
def createNewBranch (gh : GithubState) (branchPref filePath : String) (now : Nat)
    (steps0 : List PrStep) : List PrStep × Except String (Option String) :=
  let newBranchName := branchPref ++ "_" ++ toString now
  let steps1 := steps0 ++ [PrStep.getBaseRef]
  match gh.baseRef with
  | none => (steps1, .error "Failed to get ref for base branch main")
  | some _sha =>
    let steps2 := steps1 ++ [PrStep.createBranch newBranchName]
    if !gh.createRefOk then (steps2, .error ("Failed to create branch " ++ newBranchName))
    else
      let steps3 := steps2 ++ [PrStep.commitFile newBranchName]
      if !(gh.putFile newBranchName) then
        (steps3, .error ("Failed to create file " ++ filePath ++ " in branch " ++ newBranchName))
      else
        let steps4 := steps3 ++ [PrStep.openPull newBranchName]
        match gh.createPull newBranchName with
        | none => (steps4, .error ("Failed to create PR from branch " ++ newBranchName))
        | some pr => (steps4 ++ [PrStep.dbSetPrUrl pr.htmlUrl], .ok (some pr.htmlUrl))

/-- Section 5 of the `apps/generator ` variant: the checks and the four-case
switch for the first relevant branch. -/
def handleBranch (gh : GithubState) (contentBase64 branchPref filePath branch : String)
    (now : Nat) (steps0 : List PrStep) : List PrStep × Except String (Option String) :=
  let steps1 := steps0 ++ [PrStep.readBranchFile branch]
  let fc := fileCompare (gh.branchFile branch) contentBase64
  let steps2 := steps1 ++ [PrStep.listPulls branch]
  let prs := (gh.prList branch).getD []
  let prExists := !prs.isEmpty
  let openPr := if prExists then prs.head? else none
  let key := caseKeyOf fc.present fc.identical prExists
  let steps3 := steps2 ++ [PrStep.logCase key]
  if key == "branch-existant:fileDiff-unchanged:pr-existant" then
    -- Case 1: file unchanged, PR exists
    let url := openPr.map (·.htmlUrl)
    (steps3 ++ dbSetIfTruthy url, .ok url)
  else if key == "branch-existant:fileDiff-unchanged:pr-inexistant" then
    -- Case 2: file unchanged, create PR
    let steps4 := steps3 ++ [PrStep.openPull branch]
    match gh.createPull branch with
    | none => (steps4, .error "Failed to create PR for existing branch")
    | some pr => (steps4 ++ [PrStep.dbSetPrUrl pr.htmlUrl], .ok (some pr.htmlUrl))
  else if key == "branch-existant:fileDiff-changed:pr-existant" then
    -- Case 3: file changed, update it in the PR branch
    let steps4 := steps3 ++ [PrStep.commitFile branch]
    if !(gh.putFile branch) then (steps4, .error "Failed to update file in existing branch")
    else
      let url := openPr.map (·.htmlUrl)
      (steps4 ++ dbSetIfTruthy url, .ok url)
  else if key == "branch-existant:fileDiff-changed:pr-inexistant" then
    -- Case 4: file changed, update it and create a PR
    let steps4 := steps3 ++ [PrStep.commitFile branch]
    if !(gh.putFile branch) then (steps4, .error "Failed to update file in existing branch")
    else
      let steps5 := steps4 ++ [PrStep.openPull branch]
      match gh.createPull branch with
      | none => (steps5, .error "Failed to create PR for updated branch")
      | some pr => (steps5 ++ [PrStep.dbSetPrUrl pr.htmlUrl], .ok (some pr.htmlUrl))
  else
    -- no switch case matched: control falls through to section 7
    createNewBranch gh branchPref filePath now steps3

/-- Sections 2 to 7 of the `apps/generator ` variant, after the cache check. -/
def createPrBody (gh : GithubState) (e : Entry) (input : String) (now : Nat) :
    List PrStep × Except String (Option String) :=
  if !(optTruthy e.dynamicSectionsContent) then ([], .error (noDynMsg input))
  else if e.takeaways.isNone then ([], .error (noTakeawaysMsg input))
  else
    let slug := githubSlug e.inputTerm
    let contentBase64 := base64String (mdxContent e)
    let branchPref := "richard/add_" ++ slug
    let filePath := "apps/www/content/glossary/" ++ slug ++ ".mdx"
    let mc := fileCompare gh.mainFile contentBase64
    if mc.present && mc.identical then
      ([PrStep.readMainFile], .ok e.githubPrUrl)
    else
      match gh.branchList with
      | none => ([PrStep.readMainFile, PrStep.listBranches], .error "Failed to list branches")
      | some allBranches =>
        let relevantBranches := allBranches.filter (fun b => strStartsWith b branchPref)
        match relevantBranches with
        | branch :: _ =>
          handleBranch gh contentBase64 branchPref filePath branch now
            [PrStep.readMainFile, PrStep.listBranches]
        | [] =>
          createNewBranch gh branchPref filePath now [PrStep.readMainFile, PrStep.listBranches]

/-- The `retry: { maxAttempts: 0 }` configuration of `createPrTask`. -/
def createPrRetryMaxAttempts : Nat := 0

/-- Step 1 of `createPrTask`: the cache check.  Both `findFirst` queries use
the same filter and ordering, so `entry?` stands for the row either returns. -/
def prCacheHit (e : Entry) (onCacheHit : CacheStrategy) : Bool :=
  optTruthy e.githubPrUrl && onCacheHit == .stale

/-- The `run` body of `createPrTask` (`apps/generator ` variant).  `now` is
`Date.now()`; the result carries the `githubPrUrl` field of the returned
entry. -/
def createPrRun (gh : GithubState) (entry? : Option Entry) (input : String)
    (onCacheHit : CacheStrategy) (now : Nat) :
    List PrStep × Except String (Option String) :=
  match entry? with
  | some e =>
    if prCacheHit e onCacheHit then ([], .ok e.githubPrUrl)
    else createPrBody gh e input now
  | none => ([], .error (noDynMsg input))

/-! ### The `part_006` variant -/

/-- The per-branch record produced by the `Promise.all` pass of the
`part_006` variant. -/
structure BranchInfo where
  branch : String
  branchFileExists : Bool
  branchFileIsIdentical : Bool
  branchFileSha : Option String
  prExists : Bool
  openPr : Option PullRequest
deriving DecidableEq

def p6ProcessBranch (gh : GithubState) (contentBase64 branch : String) : BranchInfo :=
  let fc := fileCompare (gh.branchFile branch) contentBase64
  let prs := (gh.prList branch).getD []
  let prExists := !prs.isEmpty
  ⟨branch, fc.present, fc.identical, fc.sha, prExists, if prExists then prs.head? else none⟩

/-- The `caseKey` of the `part_006` variant: three file states times two PR
states. -/
def p6CaseKey (branchFileExists branchFileIsIdentical prExists : Bool) : String :=
  (if branchFileExists then (if branchFileIsIdentical then "identical" else "different")
    else "missing") ++ ":" ++
  (if prExists then "pr-exists" else "no-pr")

/-- The case loop of the `part_006` variant: each `continue` moves to the
next branch record; an exhausted loop falls through to the new-branch path. -/
def p6Loop (gh : GithubState) (branchPref filePath : String) (now : Nat) :
    List BranchInfo → List PrStep × Except String (Option String)
  | [] => createNewBranch gh branchPref filePath now []
  | info :: rest =>
    let key := p6CaseKey info.branchFileExists info.branchFileIsIdentical info.prExists
    let steps0 := [PrStep.logCase key]
    if key == "identical:pr-exists" then
      -- Case 1: file identical and PR exists
      let url := info.openPr.map (·.htmlUrl)
      (steps0 ++ dbSetIfTruthy url, .ok url)
    else if key == "identical:no-pr" then
      -- Case 2: file identical, no PR
      let steps1 := steps0 ++ [PrStep.openPull info.branch]
      match gh.createPull info.branch with
      | none =>
        let next := p6Loop gh branchPref filePath now rest
        (steps1 ++ next.1, next.2)
      | some pr => (steps1 ++ [PrStep.dbSetPrUrl pr.htmlUrl], .ok (some pr.htmlUrl))
    else if key == "different:pr-exists" then
      -- Case 3: file different, PR exists
      let steps1 := steps0 ++ [PrStep.commitFile info.branch]
      if !(gh.putFile info.branch) then
        let next := p6Loop gh branchPref filePath now rest
        (steps1 ++ next.1, next.2)
      else
        let url := info.openPr.map (·.htmlUrl)
        (steps1 ++ dbSetIfTruthy url, .ok url)
    else if key == "different:no-pr" then
      -- Case 4: file different, no PR
      let steps1 := steps0 ++ [PrStep.commitFile info.branch]
      if !(gh.putFile info.branch) then
        let next := p6Loop gh branchPref filePath now rest
        (steps1 ++ next.1, next.2)
      else
        let steps2 := steps1 ++ [PrStep.openPull info.branch]
        match gh.createPull info.branch with
        | none =>
          let next := p6Loop gh branchPref filePath now rest
          (steps2 ++ next.1, next.2)
        | some pr => (steps2 ++ [PrStep.dbSetPrUrl pr.htmlUrl], .ok (some pr.htmlUrl))
    else if key == "missing:pr-exists" then
      -- Case 5: file missing but PR exists: create the file in the branch
      let steps1 := steps0 ++ [PrStep.commitFile info.branch]
      if !(gh.putFile info.branch) then
        let next := p6Loop gh branchPref filePath now rest
        (steps1 ++ next.1, next.2)
      else
        let url := info.openPr.map (·.htmlUrl)
        (steps1 ++ dbSetIfTruthy url, .ok url)
    else if key == "missing:no-pr" then
      -- Case 6: file missing and no PR: create the file and the PR
      let steps1 := steps0 ++ [PrStep.commitFile info.branch]
      if !(gh.putFile info.branch) then
        let next := p6Loop gh branchPref filePath now rest
        (steps1 ++ next.1, next.2)
      else
        let steps2 := steps1 ++ [PrStep.openPull info.branch]
        match gh.createPull info.branch with
        | none =>
          let next := p6Loop gh branchPref filePath now rest
          (steps2 ++ next.1, next.2)
        | some pr => (steps2 ++ [PrStep.dbSetPrUrl pr.htmlUrl], .ok (some pr.htmlUrl))
    else
      -- no switch case matched: the JS loop just continues
      p6Loop gh branchPref filePath now rest

/-- The `run` body of the `part_006` variant of `createPrTask`. -/
def createPrRunP6 (gh : GithubState) (entry? : Option Entry) (input : String)
    (onCacheHit : CacheStrategy) (now : Nat) :
    List PrStep × Except String (Option String) :=
  match entry? with
  | some e =>
    if prCacheHit e onCacheHit then ([], .ok e.githubPrUrl)
    else if !(optTruthy e.dynamicSectionsContent) then ([], .error (noDynMsg input))
    else if e.takeaways.isNone then ([], .error (noTakeawaysMsg input))
    else
      let slug := githubSlug e.inputTerm
      let contentBase64 := base64String (mdxContent e)
      let branchPref := "richard/add_" ++ slug
      let filePath := "apps/www/content/glossary/" ++ slug ++ ".mdx"
      let mc := fileCompare gh.mainFile contentBase64
      if mc.present && mc.identical then ([PrStep.readMainFile], .ok e.githubPrUrl)
      else
        match gh.branchList with
        | none => ([PrStep.readMainFile, PrStep.listBranches], .error "Failed to list branches")
        | some allBranches =>
          let relevantBranches := allBranches.filter (fun b => strStartsWith b branchPref)
          let reads := (relevantBranches.map
            (fun b => [PrStep.readBranchFile b, PrStep.listPulls b])).flatten
          let infos := relevantBranches.map (p6ProcessBranch gh contentBase64)
          let next := p6Loop gh branchPref filePath now infos
          ([PrStep.readMainFile, PrStep.listBranches] ++ reads ++ next.1, next.2)
  | none => ([], .error (noDynMsg input))

/-! ### Decision-factoring definitions for the reconciliation case -/

/-- The first logged `caseKey` of a run, if any. -/
def selectedCase (steps : List PrStep) : Option String :=
  steps.findSome? (fun s => match s with | PrStep.logCase k => some k | _ => none)

/-- The branch listing filtered by the slug-derived branch name beginning. -/
def relBranches (gh : GithubState) (e : Entry) : Option (List String) :=
  gh.branchList.map (fun bs =>
    bs.filter (fun b => strStartsWith b ("richard/add_" ++ githubSlug e.inputTerm)))

/-- The switch case the `apps/generator ` variant executes, written as a
function of the remote read results and the cached entry alone (a refinement
of the run, compared against it below). -/
def prDecideCase (mainFile : Option GithubFile) (relevant : Option (List String))
    (branchFile : String → Option GithubFile)
    (prList : String → Option (List PullRequest))
    (e : Entry) (onCacheHit : CacheStrategy) : Option String :=
  if prCacheHit e onCacheHit then none
  else if !(optTruthy e.dynamicSectionsContent) then none
  else if e.takeaways.isNone then none
  else
    let contentBase64 := base64String (mdxContent e)
    let mc := fileCompare mainFile contentBase64
    if mc.present && mc.identical then none
    else
      match relevant with
      | none => none
      | some [] => none
      | some (branch :: _) =>
        let fc := fileCompare (branchFile branch) contentBase64
        let prs := (prList branch).getD []
        some (caseKeyOf fc.present fc.identical (!prs.isEmpty))

/-! ## Supporting lemmas -/

lemma hasKey_urlParamsDelete_self (k : String) (l : List (String × String)) :
    hasKey k (urlParamsDelete k l) = false := by
  induction l with
  | nil => rfl
  | cons p rest ih =>
    by_cases h : p.1 = k
    · simp only [urlParamsDelete, hasKey] at ih ⊢
      simp [h, ih]
    · simp only [urlParamsDelete, hasKey] at ih ⊢
      simp [h, ih]

lemma hasKey_urlParamsSet_self (k v : String) (l : List (String × String)) :
    hasKey k (urlParamsSet k v l) = true := by
  induction l with
  | nil => simp [urlParamsSet, hasKey]
  | cons p rest ih =>
    by_cases h : p.1 = k
    · simp [urlParamsSet, h, hasKey]
    · simpa [urlParamsSet, h, hasKey] using ih

lemma hasKey_urlParamsDelete_other (k k2 : String) (hk : k ≠ k2)
    (l : List (String × String)) :
    hasKey k (urlParamsDelete k2 l) = hasKey k l := by
  have hk2 : k2 ≠ k := fun hq => hk hq.symm
  induction l with
  | nil => rfl
  | cons p rest ih =>
    by_cases h : p.1 = k2
    · simp [urlParamsDelete, hasKey, h, hk2] at ih ⊢
      exact ih
    · simp [urlParamsDelete, hasKey, h] at ih ⊢
      rw [ih]

lemma hasKey_urlParamsSet_other (k k2 v : String) (hk : k ≠ k2)
    (l : List (String × String)) :
    hasKey k (urlParamsSet k2 v l) = hasKey k l := by
  have hk2 : k2 ≠ k := fun hq => hk hq.symm
  induction l with
  | nil => simp [urlParamsSet, hasKey, hk2]
  | cons p rest ih =>
    by_cases h : p.1 = k2
    · simp [urlParamsSet, hasKey, h, hk2]
      have hd := hasKey_urlParamsDelete_other k k2 hk rest
      simp [hasKey] at hd
      exact hd
    · simp [urlParamsSet, hasKey, h] at ih ⊢
      rw [ih]

lemma enumFrom_shift (n : Nat) (l : List ResearchItem) :
    l.enumFrom (n + 1) = (l.enumFrom n).map (fun q => (q.1 + 1, q.2)) := by
  induction l generalizing n with
  | nil => rfl
  | cons a as ih => simp [List.enumFrom, ih]

lemma dedupeByUrl_cons (x : ResearchItem) (xs : List ResearchItem) :
    dedupeByUrl (x :: xs) = x :: (dedupeByUrl xs).filter (fun r => r.url != x.url) := by
  unfold dedupeByUrl
  have h0 : (x :: xs).enum = (0, x) :: (xs.enum.map (fun q => (q.1 + 1, q.2))) := by
    show (x :: xs).enumFrom 0 = _
    rw [show xs.enum = xs.enumFrom 0 from rfl, ← enumFrom_shift]
    rfl
  rw [h0, List.filter_cons]
  have hx : (x :: xs).findIdx (fun t => t.url == x.url) = 0 := by
    simp [List.findIdx_cons]
  simp only [hx, decide_eq_true_eq, if_pos, List.map_cons]
  have hAB : ∀ q ∈ xs.enum,
      (decide (List.findIdx (fun t => t.url == q.2.url) (x :: xs) = q.1 + 1)) =
      ((q.2.url != x.url) && decide (List.findIdx (fun t => t.url == q.2.url) xs = q.1)) := by
    intro q _
    simp only [List.findIdx_cons]
    by_cases hxq : x.url = q.2.url
    · simp [hxq, bne]
    · have hbe : (x.url == q.2.url) = false := by simp [hxq]
      have hq : ¬ q.2.url = x.url := fun hq => hxq hq.symm
      have hbe2 : (q.2.url == x.url) = false := by simp [hq]
      simp only [hbe, hbe2, cond_false, bne, Bool.not_false, Bool.true_and]
      rw [decide_eq_decide]
      omega
  congr 1
  rw [List.filter_map, List.map_map]
  show List.map (fun q : ℕ × ResearchItem => q.2)
      (List.filter (fun q : ℕ × ResearchItem =>
        decide (List.findIdx (fun t => t.url == q.2.url) (x :: xs) = q.1 + 1)) xs.enum) = _
  rw [List.filter_congr hAB]
  rw [List.filter_map, List.filter_filter]
  rfl

/-- C9: `updateSearchParams` keeps the URL canonical.  For every requested
tag/page combination the resulting query parameters contain `page` exactly
when the requested page is greater than 1 and `tag` exactly when a non-empty
tag is set, so the default state (page 1, no tag) is always represented by
the absence of those parameters. -/
theorem updateSearchParams_canonical (prev : List (String × String)) (np : NewParams) :
    (hasKey "page" (updateSearchParams prev np) = true ↔ ∃ p, np.page = some p ∧ 1 < p) ∧
    (hasKey "tag" (updateSearchParams prev np) = true ↔ ∃ t, np.tag = some t ∧ t ≠ "") := by
  have hTagPage : ("tag" : String) ≠ "page" := by decide
  constructor
  · simp only [updateSearchParams]
    cases hp : np.page with
    | none => simp [pageTruthy, hasKey_urlParamsDelete_self]
    | some p =>
      by_cases h1 : (1 : Int) < p
      · have hne : (p != 0) = true := by simp; omega
        simp [pageTruthy, h1, hne, hasKey_urlParamsSet_self]
      · simp [pageTruthy, h1, hasKey_urlParamsDelete_self]
  · simp only [updateSearchParams]
    rw [show ∀ l, hasKey "tag"
        (if pageTruthy np.page && decide ((np.page.getD 0) > 1)
          then urlParamsSet "page" (toString (np.page.getD 0)) l
          else urlParamsDelete "page" l) = hasKey "tag" l from by
      intro l
      split
      · exact hasKey_urlParamsSet_other "tag" "page" _ hTagPage l
      · exact hasKey_urlParamsDelete_other "tag" "page" hTagPage l]
    cases ht : np.tag with
    | none => simp [optTruthy, hasKey_urlParamsDelete_self]
    | some t =>
      by_cases he : t = ""
      · simp [optTruthy, he, hasKey_urlParamsDelete_self]
      · simp [optTruthy, he, hasKey_urlParamsSet_self]

/-- C10: for an empty term or empty content, `reviewGenerationTask` aborts
before triggering either sub-evaluation: the trigger trace is empty and the
run ends in `AbortTaskRunError`.  Keyword research is only ever started from
inside `seoReviewTask`, so none is started either. -/
theorem reviewGeneration_empty_input_aborts (term content : String)
    (techRun seoRun : Option EvalResult) (h : term = "" ∨ content = "") :
    reviewGenerationRun term content techRun seoRun =
      ([], .error "Term or content is empty") := by
  unfold reviewGenerationRun
  simp [h]

theorem reviewGeneration_empty_input_aborts_witness :
    reviewGenerationRun "" "HATEOAS is a constraint of REST." none none =
      ([], .error "Term or content is empty") :=
  reviewGeneration_empty_input_aborts "" "HATEOAS is a constraint of REST." none none
    (Or.inl rfl)

/-- C3: when both sub-evaluations complete, the combined result carries the
technical output in `technical` and the SEO output in `seo`, and `passed` is
true exactly when both passed; when either sub-evaluation fails to complete,
`passed` is false. -/
theorem reviewGeneration_combined_result :
    (∀ term content t s, term ≠ "" → content ≠ "" →
      ∃ out, (reviewGenerationRun term content (some t) (some s)).2 = .ok out ∧
        out.technical = some t ∧ out.seo = some s ∧
        (out.passed = true ↔ (t.passed = true ∧ s.passed = true))) ∧
    (∀ term content techRun seoRun, term ≠ "" → content ≠ "" →
      (techRun = none ∨ seoRun = none) →
      ∃ out, (reviewGenerationRun term content techRun seoRun).2 = .ok out ∧
        out.passed = false) := by
  constructor
  · intro term content t s ht hc
    have hrun : (reviewGenerationRun term content (some t) (some s)).2 =
        .ok ⟨some t, some s, s.passed && t.passed,
          (reviewSummary (some s) (some t)).trim⟩ := by
      simp [reviewGenerationRun, ht, hc]
    exact ⟨_, hrun, rfl, rfl, by simp [Bool.and_eq_true, and_comm]⟩
  · intro term content techRun seoRun ht hc hfail
    have hone : ((([techRun, seoRun] : List (Option EvalResult)).filterMap id))[1]? = none := by
      rcases hfail with h | h
      · subst h; cases seoRun <;> rfl
      · subst h; cases techRun <;> rfl
    have hrun : (reviewGenerationRun term content techRun seoRun).2 =
        .ok ⟨(([techRun, seoRun] : List (Option EvalResult)).filterMap id)[0]?,
          (([techRun, seoRun] : List (Option EvalResult)).filterMap id)[1]?,
          (Option.map (fun x => x.passed)
              (([techRun, seoRun] : List (Option EvalResult)).filterMap id)[1]?).getD false &&
            (Option.map (fun x => x.passed)
              (([techRun, seoRun] : List (Option EvalResult)).filterMap id)[0]?).getD false,
          (reviewSummary (([techRun, seoRun] : List (Option EvalResult)).filterMap id)[1]?
            (([techRun, seoRun] : List (Option EvalResult)).filterMap id)[0]?).trim⟩ := by
      simp [reviewGenerationRun, ht, hc]
    exact ⟨_, hrun, by simp [hone]⟩

theorem reviewGeneration_combined_result_witness :
    (∃ out, (reviewGenerationRun "HATEOAS" "content"
        (some ⟨7, true, "ok", none, [], none⟩) (some ⟨6, false, "meh", none, [], none⟩)).2 =
          .ok out ∧
      out.technical = some ⟨7, true, "ok", none, [], none⟩ ∧
      out.seo = some ⟨6, false, "meh", none, [], none⟩ ∧
      (out.passed = true ↔
        ((⟨7, true, "ok", none, [], none⟩ : EvalResult).passed = true ∧
          (⟨6, false, "meh", none, [], none⟩ : EvalResult).passed = true))) ∧
    (∃ out, (reviewGenerationRun "HATEOAS" "content" none
        (some ⟨6, true, "meh", none, [], none⟩)).2 = .ok out ∧ out.passed = false) :=
  ⟨reviewGeneration_combined_result.1 "HATEOAS" "content" _ _
      (by decide) (by decide),
    reviewGeneration_combined_result.2 "HATEOAS" "content" none
      (some ⟨6, true, "meh", none, [], none⟩) (by decide) (by decide) (Or.inl rfl)⟩

/-- C6: on a cache miss, the technical-research stage issues exactly one
search per domain category (in category order), logs a warning for failed
category runs instead of failing the stage, feeds the evaluation the
URL-deduplicated combination of the successful runs, and scrapes exactly the
URLs the evaluation included — in that order.  The last two conjuncts pin
down the dedup: it keeps the first occurrence of each URL and drops the
later ones. -/
theorem technicalResearch_fanout_spec :
    (∀ existing onCacheHit inputTerm searchRuns evaluate getContents
        (ev : SearchEvaluation),
      trCacheHit existing onCacheHit = false →
      evaluate (dedupeByUrl ((searchRuns.filterMap id).flatten)) = some ev →
      technicalResearchRun existing onCacheHit inputTerm searchRuns evaluate getContents =
        (domainCategories.map (fun c => TRStep.domainSearch c.name) ++
          (if (searchRuns.filter (·.isNone)).length > 0 then
              [TRStep.warnFailedSearches (searchRuns.filter (·.isNone)).length] else []) ++
          [TRStep.evaluate (dedupeByUrl ((searchRuns.filterMap id).flatten)),
            TRStep.scrape (ev.included.map (·.url)),
            TRStep.persist (researchOutput inputTerm ((searchRuns.filterMap id).flatten) ev
              (getContents (ev.included.map (·.url))))],
          .ok (researchOutput inputTerm ((searchRuns.filterMap id).flatten) ev
            (getContents (ev.included.map (·.url)))))) ∧
    dedupeByUrl [] = [] ∧
    (∀ x xs, dedupeByUrl (x :: xs) = x :: (dedupeByUrl xs).filter (fun r => r.url != x.url)) := by
  refine ⟨?_, rfl, dedupeByUrl_cons⟩
  intro existing onCacheHit inputTerm searchRuns evaluate getContents ev hmiss hev
  unfold technicalResearchRun
  rw [hmiss]
  simp only [Bool.false_eq_true, if_false, hev]

/-- Sample data for the research witnesses. -/
def sampleItem (u : String) : ResearchItem :=
  ⟨u, "title", "summary", "", "Official"⟩

def sampleEvaluation : SearchEvaluation :=
  ⟨"summary", [sampleItem "https://a.example"], [sampleItem "https://b.example"]⟩

theorem technicalResearch_fanout_spec_witness :
    technicalResearchRun none CacheStrategy.stale "MIME types"
        [some [sampleItem "https://a.example", sampleItem "https://b.example"], none,
          some [sampleItem "https://a.example"], some []]
        (fun _ => some sampleEvaluation)
        (fun urls => urls.map sampleItem) =
      (domainCategories.map (fun c => TRStep.domainSearch c.name) ++
        (if (([some [sampleItem "https://a.example", sampleItem "https://b.example"], none,
              some [sampleItem "https://a.example"], some []] :
                List (Option (List ResearchItem))).filter (·.isNone)).length > 0 then
            [TRStep.warnFailedSearches
              (([some [sampleItem "https://a.example", sampleItem "https://b.example"], none,
                some [sampleItem "https://a.example"], some []] :
                  List (Option (List ResearchItem))).filter (·.isNone)).length] else []) ++
        [TRStep.evaluate (dedupeByUrl
            ((([some [sampleItem "https://a.example", sampleItem "https://b.example"], none,
              some [sampleItem "https://a.example"], some []] :
                List (Option (List ResearchItem))).filterMap id).flatten)),
          TRStep.scrape (sampleEvaluation.included.map (·.url)),
          TRStep.persist (researchOutput "MIME types"
            ((([some [sampleItem "https://a.example", sampleItem "https://b.example"], none,
              some [sampleItem "https://a.example"], some []] :
                List (Option (List ResearchItem))).filterMap id).flatten) sampleEvaluation
            ((sampleEvaluation.included.map (·.url)).map sampleItem))],
        .ok (researchOutput "MIME types"
          ((([some [sampleItem "https://a.example", sampleItem "https://b.example"], none,
            some [sampleItem "https://a.example"], some []] :
              List (Option (List ResearchItem))).filterMap id).flatten) sampleEvaluation
          ((sampleEvaluation.included.map (·.url)).map sampleItem))) :=
  technicalResearch_fanout_spec.1 none CacheStrategy.stale "MIME types"
    [some [sampleItem "https://a.example", sampleItem "https://b.example"], none,
      some [sampleItem "https://a.example"], some []]
    (fun _ => some sampleEvaluation) (fun urls => urls.map sampleItem) sampleEvaluation
    rfl rfl

/-- C7: with a stored technical research whose `included` list is non-empty
and `onCacheHit = "stale"`, both research tasks return the cached value
(`exaDomainSearchTask` restricted to its domain) with an empty trace — no
search is issued and the stored entry is untouched; otherwise they perform
the search work and persist the new output before returning it. -/
theorem research_cache_discipline :
    (∀ (tr : TechnicalResearch) inputTerm searchRuns evaluate getContents,
      tr.included ≠ [] →
      technicalResearchRun (some tr) CacheStrategy.stale inputTerm searchRuns
          evaluate getContents = ([], .ok tr)) ∧
    (∀ (tr : TechnicalResearch) domain searchResult,
      tr.included ≠ [] →
      exaDomainSearchRun (some tr) CacheStrategy.stale domain searchResult =
        ([], .ok (tr.included.filter (fun r => r.categoryName == domain)))) ∧
    (∀ existing onCacheHit inputTerm searchRuns evaluate getContents
        (ev : SearchEvaluation),
      trCacheHit existing onCacheHit = false →
      evaluate (dedupeByUrl ((searchRuns.filterMap id).flatten)) = some ev →
      ∃ steps out,
        technicalResearchRun existing onCacheHit inputTerm searchRuns evaluate getContents =
          (steps, .ok out) ∧ TRStep.persist out ∈ steps) ∧
    (∀ existing onCacheHit domain searchResult,
      trCacheHit existing onCacheHit = false →
      ∃ steps written,
        exaDomainSearchRun existing onCacheHit domain searchResult =
          (steps, .ok (written.included.filter (fun r => r.categoryName == domain))) ∧
        TRStep.persist written ∈ steps ∧ TRStep.domainSearch domain ∈ steps) := by
  refine ⟨?_, ?_, ?_, ?_⟩
  · intro tr inputTerm searchRuns evaluate getContents hne
    have hhit : trCacheHit (some tr) CacheStrategy.stale = true := by
      simp [trCacheHit, hne]
    unfold technicalResearchRun
    rw [hhit]
    rfl
  · intro tr domain searchResult hne
    have hhit : trCacheHit (some tr) CacheStrategy.stale = true := by
      simp [trCacheHit, hne]
    unfold exaDomainSearchRun
    rw [hhit]
    rfl
  · intro existing onCacheHit inputTerm searchRuns evaluate getContents ev hmiss hev
    rw [technicalResearch_fanout_spec.1 existing onCacheHit inputTerm searchRuns
      evaluate getContents ev hmiss hev]
    exact ⟨_, _, rfl, by simp⟩
  · intro existing onCacheHit domain searchResult hmiss
    unfold exaDomainSearchRun
    rw [hmiss]
    simp only [Bool.false_eq_true, if_false]
    refine ⟨_, ⟨"", "",
      searchResult.map (fun r => { r with categoryName :=
        ((domainCategories.find? (fun c => c.name == domain)).getD
          ⟨domain, [], ""⟩).name }), []⟩, rfl, by simp, by simp⟩

theorem research_cache_discipline_witness :
    technicalResearchRun (some ⟨"t", "s", [sampleItem "https://a.example"], []⟩)
        CacheStrategy.stale "t" [] (fun _ => none) (fun _ => []) =
      ([], .ok ⟨"t", "s", [sampleItem "https://a.example"], []⟩) ∧
    exaDomainSearchRun (some ⟨"t", "s", [sampleItem "https://a.example"], []⟩)
        CacheStrategy.stale "Official" [] =
      ([], .ok ((⟨"t", "s", [sampleItem "https://a.example"], []⟩ :
          TechnicalResearch).included.filter (fun r => r.categoryName == "Official"))) ∧
    (∃ steps out,
      technicalResearchRun none CacheStrategy.stale "t" [some [sampleItem "https://a.example"]]
          (fun _ => some sampleEvaluation) (fun urls => urls.map sampleItem) =
        (steps, .ok out) ∧ TRStep.persist out ∈ steps) ∧
    (∃ steps written,
      exaDomainSearchRun none CacheStrategy.revalidate "Official"
          [sampleItem "https://a.example"] =
        (steps, .ok (written.included.filter (fun r => r.categoryName == "Official"))) ∧
      TRStep.persist written ∈ steps ∧ TRStep.domainSearch "Official" ∈ steps) :=
  ⟨research_cache_discipline.1 _ "t" [] (fun _ => none) (fun _ => []) (by decide),
    research_cache_discipline.2.1 _ "Official" [] (by decide),
    research_cache_discipline.2.2.1 none CacheStrategy.stale "t"
      [some [sampleItem "https://a.example"]] (fun _ => some sampleEvaluation)
      (fun urls => urls.map sampleItem) sampleEvaluation rfl rfl,
    research_cache_discipline.2.2.2 none CacheStrategy.revalidate "Official"
      [sampleItem "https://a.example"] rfl⟩

lemma mem_range_map (a : Int) (n : Nat) (i : Int) :
    i ∈ (List.range n).map (fun (k : Nat) => a + (k : Int)) ↔ a ≤ i ∧ i < a + n := by
  induction n with
  | zero => simp
  | succ m ih =>
    rw [List.range_succ, List.map_append, List.mem_append]
    simp only [List.map_cons, List.map_nil, List.mem_singleton]
    rw [ih]
    constructor
    · rintro (⟨h1, h2⟩ | rfl)
      · constructor <;> omega
      · constructor <;> omega
    · rintro ⟨h1, h2⟩
      by_cases hcase : i = a + m
      · right; omega
      · left; constructor <;> omega

lemma mem_pageWindow {a b i : Int} : i ∈ pageWindow a b ↔ a ≤ i ∧ i ≤ b := by
  unfold pageWindow
  rw [mem_range_map]
  omega

lemma mem_pageButtons {cp np : Int} (x : PgItem) :
    x ∈ pageButtons cp np ↔
      ((1 < max 1 (cp - 2) ∧ x = PgItem.page 1 false) ∨
        (2 < max 1 (cp - 2) ∧ x = PgItem.dotsStart) ∨
        (∃ i, (max 1 (cp - 2) ≤ i ∧ i ≤ min np (cp + 2)) ∧ PgItem.page i (cp == i) = x) ∨
        (min np (cp + 2) < np - 1 ∧ x = PgItem.dotsEnd) ∨
        (min np (cp + 2) < np ∧ x = PgItem.page np false)) := by
  unfold pageButtons
  by_cases hs2 : 2 < max 1 (cp - 2)
  · have hs1 : 1 < max 1 (cp - 2) := by omega
    by_cases he2 : min np (cp + 2) < np - 1
    · have he1 : min np (cp + 2) < np := by omega
      simp [hs1, hs2, he1, he2, mem_pageWindow]
    · by_cases he1 : min np (cp + 2) < np
      · simp [hs1, hs2, he1, he2, mem_pageWindow]
      · simp [hs1, hs2, he1, he2, mem_pageWindow]
  · by_cases hs1 : 1 < max 1 (cp - 2)
    · by_cases he2 : min np (cp + 2) < np - 1
      · have he1 : min np (cp + 2) < np := by omega
        simp [hs1, hs2, he1, he2, mem_pageWindow]
      · by_cases he1 : min np (cp + 2) < np
        · simp [hs1, hs2, he1, he2, mem_pageWindow]
        · simp [hs1, hs2, he1, he2, mem_pageWindow]
    · by_cases he2 : min np (cp + 2) < np - 1
      · have he1 : min np (cp + 2) < np := by omega
        simp [hs1, hs2, he1, he2, mem_pageWindow]
      · by_cases he1 : min np (cp + 2) < np
        · simp [hs1, hs2, he1, he2, mem_pageWindow]
        · simp [hs1, hs2, he1, he2, mem_pageWindow]

lemma mem_triple {p n x : PgItem} {L : List PgItem} :
    x ∈ [p] ++ L ++ [n] ↔ (x = p ∨ x ∈ L ∨ x = n) := by
  simp [List.mem_append, or_assoc]

/-- C8 (amended): `BlogPagination` renders nothing when `numPages ≤ 1`; for
every `currentPage` in the closed interval `[1, numPages]` with
`numPages > 1`, the Previous control is disabled exactly when `currentPage`
is `1` and the Next control exactly when `currentPage = numPages`, every
rendered page link targets a page in `[1, numPages]`, the numbered window
spans `max 1 (currentPage-2)` through `min numPages (currentPage+2)`, pages
`1` and `numPages` are always rendered, and an ellipsis appears on a side
only when the gap to that boundary page is at least `2`.  (The original
claim quantified over every `currentPage`; the counterexample shows the
disabled-iff clauses fail outside `[1, numPages]`.) -/
theorem blogPagination_spec :
    (∀ cp np : Int, np ≤ 1 → blogPagination cp np = none) ∧
    (∀ cp np : Int, 1 ≤ cp → cp ≤ np → 1 < np →
      ∃ items, blogPagination cp np = some items ∧
        (PgItem.prevC true none ∈ items ↔ cp = 1) ∧
        (∀ t, PgItem.prevC false (some t) ∈ items ↔ (1 < cp ∧ t = cp - 1)) ∧
        (PgItem.nextC true none ∈ items ↔ cp = np) ∧
        (∀ t, PgItem.nextC false (some t) ∈ items ↔ (cp < np ∧ t = cp + 1)) ∧
        (∀ n a, PgItem.page n a ∈ items → 1 ≤ n ∧ n ≤ np) ∧
        (∀ i : Int, max 1 (cp - 2) ≤ i → i ≤ min np (cp + 2) →
          PgItem.page i (cp == i) ∈ items) ∧
        (∃ a, PgItem.page 1 a ∈ items) ∧
        (∃ a, PgItem.page np a ∈ items) ∧
        (PgItem.dotsStart ∈ items → 2 ≤ max 1 (cp - 2) - 1) ∧
        (PgItem.dotsEnd ∈ items → 2 ≤ np - min np (cp + 2))) := by
  constructor
  · intro cp np h
    unfold blogPagination
    rw [if_pos h]
  · intro cp np h1 h2 hn
    refine ⟨[if cp > 1 then PgItem.prevC false (some (max 1 (cp - 1)))
          else PgItem.prevC true none] ++
        pageButtons cp np ++
        [if cp < np then PgItem.nextC false (some (min np (cp + 1)))
          else PgItem.nextC true none],
      by unfold blogPagination; rw [if_neg (by omega)],
      ?_, ?_, ?_, ?_, ?_, ?_, ?_, ?_, ?_, ?_⟩
    · rw [mem_triple, mem_pageButtons]
      by_cases hcp : 1 < cp <;> by_cases hnp : cp < np <;> simp [hcp, hnp] <;> omega
    · intro t
      rw [mem_triple, mem_pageButtons]
      by_cases hcp : 1 < cp <;> by_cases hnp : cp < np <;> simp [hcp, hnp] <;> omega
    · rw [mem_triple, mem_pageButtons]
      by_cases hcp : 1 < cp <;> by_cases hnp : cp < np <;> simp [hcp, hnp] <;> omega
    · intro t
      rw [mem_triple, mem_pageButtons]
      by_cases hcp : 1 < cp <;> by_cases hnp : cp < np <;> simp [hcp, hnp] <;> omega
    · intro n a hx
      rw [mem_triple, mem_pageButtons] at hx
      by_cases hcp : 1 < cp <;> by_cases hnp : cp < np <;>
        simp [hcp, hnp] at hx <;>
        (rcases hx with ⟨_, rfl, rfl⟩ | ⟨i, ⟨hi1, hi2⟩, rfl, _⟩ | ⟨_, rfl, rfl⟩ <;> omega)
    · intro i hi1 hi2
      rw [mem_triple, mem_pageButtons]
      exact Or.inr (Or.inl (Or.inr (Or.inr (Or.inl ⟨i, ⟨hi1, hi2⟩, rfl⟩))))
    · by_cases h3 : 3 < cp
      · exact ⟨false, by
          rw [mem_triple, mem_pageButtons]
          exact Or.inr (Or.inl (Or.inl ⟨by omega, rfl⟩))⟩
      · exact ⟨(cp == 1), by
          rw [mem_triple, mem_pageButtons]
          exact Or.inr (Or.inl (Or.inr (Or.inr (Or.inl
            ⟨1, ⟨by omega, by omega⟩, rfl⟩))))⟩
    · by_cases h4 : min np (cp + 2) < np
      · exact ⟨false, by
          rw [mem_triple, mem_pageButtons]
          exact Or.inr (Or.inl (Or.inr (Or.inr (Or.inr (Or.inr ⟨h4, rfl⟩)))))⟩
      · exact ⟨(cp == np), by
          rw [mem_triple, mem_pageButtons]
          exact Or.inr (Or.inl (Or.inr (Or.inr (Or.inl
            ⟨np, ⟨by omega, by omega⟩, rfl⟩))))⟩
    · intro hx
      rw [mem_triple, mem_pageButtons] at hx
      by_cases hcp : 1 < cp <;> by_cases hnp : cp < np <;> simp [hcp, hnp] at hx <;> omega
    · intro hx
      rw [mem_triple, mem_pageButtons] at hx
      by_cases hcp : 1 < cp <;> by_cases hnp : cp < np <;> simp [hcp, hnp] at hx <;> omega

theorem blogPagination_spec_witness :
    blogPagination 5 1 = none ∧
    (∃ items, blogPagination 3 10 = some items ∧
      (PgItem.prevC true none ∈ items ↔ (3 : Int) = 1) ∧
      (∀ t, PgItem.prevC false (some t) ∈ items ↔ ((1 : Int) < 3 ∧ t = 3 - 1)) ∧
      (PgItem.nextC true none ∈ items ↔ (3 : Int) = 10) ∧
      (∀ t, PgItem.nextC false (some t) ∈ items ↔ ((3 : Int) < 10 ∧ t = 3 + 1)) ∧
      (∀ n a, PgItem.page n a ∈ items → 1 ≤ n ∧ n ≤ 10) ∧
      (∀ i : Int, max 1 (3 - 2) ≤ i → i ≤ min 10 (3 + 2) →
        PgItem.page i ((3 : Int) == i) ∈ items) ∧
      (∃ a, PgItem.page 1 a ∈ items) ∧
      (∃ a, PgItem.page 10 a ∈ items) ∧
      (PgItem.dotsStart ∈ items → (2 : Int) ≤ max 1 (3 - 2) - 1) ∧
      (PgItem.dotsEnd ∈ items → 2 ≤ 10 - min 10 ((3 : Int) + 2))) :=
  ⟨blogPagination_spec.1 5 1 (by decide),
    blogPagination_spec.2 3 10 (by decide) (by decide) (by decide)⟩

/-- C8 counterexample: at `currentPage = 0`, `numPages = 2` the component
renders the Previous control disabled although `currentPage ≠ 1`, so
"disabled exactly when currentPage is 1" fails for arbitrary `currentPage`. -/
theorem blogPagination_out_of_range_cex :
    blogPagination 0 2 = some
      [PgItem.prevC true none, PgItem.page 1 false, PgItem.page 2 false,
        PgItem.nextC false (some 1)] ∧ (0 : Int) ≠ 1 := by
  constructor
  · decide
  · decide

lemma createPrRun_some (gh : GithubState) (e : Entry) (input : String)
    (onCacheHit : CacheStrategy) (now : Nat) :
    createPrRun gh (some e) input onCacheHit now =
      if prCacheHit e onCacheHit then ([], .ok e.githubPrUrl)
      else createPrBody gh e input now := rfl

/-- C1: the PR reconciliation is idempotent over states a previous
successful run leaves behind.  Such a state has the entry complete (content
and takeaways present) with a recorded PR URL, and either the run is asked
with `onCacheHit = "stale"` (DB cache hit) or the glossary file already sits
on the base branch with content identical to the regenerated MDX.  A new run
then returns the recorded URL and performs no GitHub mutation: no branch is
created, no file committed, no pull request opened. -/
theorem createPr_idempotent (gh : GithubState) (e : Entry) (input : String)
    (onCacheHit : CacheStrategy) (now : Nat) (url : String)
    (hurl : e.githubPrUrl = some url) (hne : url ≠ "")
    (hdyn : optTruthy e.dynamicSectionsContent = true)
    (htake : e.takeaways.isSome = true)
    (hprev : onCacheHit = CacheStrategy.stale ∨
      ∃ f, gh.mainFile = some f ∧ stripNewlines f.content = base64String (mdxContent e)) :
    (createPrRun gh (some e) input onCacheHit now).2 = .ok (some url) ∧
    ∀ s ∈ (createPrRun gh (some e) input onCacheHit now).1,
      isGithubMutation s = false := by
  have htn : e.takeaways.isNone = false := by
    cases h : e.takeaways
    · rw [h] at htake; cases htake
    · rfl
  by_cases hst : onCacheHit = CacheStrategy.stale
  · have hch : prCacheHit e onCacheHit = true := by
      simp [prCacheHit, hurl, optTruthy, hne, hst]
    simp [createPrRun_some, hch, hurl]
  · rcases hprev with h | ⟨f, hf, hid⟩
    · exact absurd h hst
    · have hch : prCacheHit e onCacheHit = false := by
        simp [prCacheHit, hst]
      have hmc : fileCompare gh.mainFile (base64String (mdxContent e)) =
          ⟨true, true, some f.sha⟩ := by
        rw [hf]
        simp [fileCompare, hid]
      have hrun : createPrRun gh (some e) input onCacheHit now =
          ([PrStep.readMainFile], .ok e.githubPrUrl) := by
        rw [createPrRun_some]
        unfold createPrBody
        simp only [hch, Bool.false_eq_true, if_false, hdyn, Bool.not_true, htn, hmc]
        rfl
      rw [hrun, hurl]
      refine ⟨rfl, ?_⟩
      intro s hs
      simp only [List.mem_singleton] at hs
      subst hs
      rfl

/-- A database entry and GitHub state for the idempotence witness. -/
def idemEntry : Entry :=
  { id := 1, inputTerm := "t", githubPrUrl := some "https://example.com/pr/1",
    dynamicSectionsContent := some "Body", metaTitle := some "T",
    metaDescription := some "D", metaH1 := some "H", categories := [],
    takeaways := some "tk", faq := some "fq", updatedAt := "2025-01-01" }

def idemGh : GithubState :=
  { mainFile := none, branchList := some [], branchFile := fun _ => none,
    prList := fun _ => none, createPull := fun _ => none,
    putFile := fun _ => false, baseRef := none, createRefOk := false }

theorem createPr_idempotent_witness :
    (createPrRun idemGh (some idemEntry) "t" CacheStrategy.stale 0).2 =
      .ok (some "https://example.com/pr/1") ∧
    ∀ s ∈ (createPrRun idemGh (some idemEntry) "t" CacheStrategy.stale 0).1,
      isGithubMutation s = false :=
  createPr_idempotent idemGh idemEntry "t" CacheStrategy.stale 0
    "https://example.com/pr/1" rfl (by decide) (by decide) (by decide) (Or.inl rfl)

/-! ### Concrete states for the reconciliation counterexamples -/

def cexEntry : Entry :=
  { id := 1, inputTerm := "t", githubPrUrl := none,
    dynamicSectionsContent := some "Body", metaTitle := some "T",
    metaDescription := some "D", metaH1 := some "H", categories := [],
    takeaways := some "tk", faq := some "fq", updatedAt := "2025-01-01" }

def cexB64 : String := base64String (mdxContent cexEntry)

def cexBranch : String := "richard/add_t_1"

def cexPull : PullRequest := ⟨"https://example.com/pr/1"⟩

/-- Branch exists, its copy of the file is missing, no open PR. -/
def cexGhMissing : GithubState :=
  { mainFile := none, branchList := some [cexBranch],
    branchFile := fun _ => none,
    prList := fun _ => some [],
    createPull := fun _ => some cexPull,
    putFile := fun _ => true, baseRef := some "abc123", createRefOk := true }

/-- Same state, but the branch holds the file with identical content. -/
def cexGhIdentical : GithubState :=
  { cexGhMissing with
    branchFile := fun b => if b == cexBranch then some ⟨cexB64, "sha1"⟩ else none }

/-- Same state, but the branch holds the file with different content. -/
def cexGhDifferent : GithubState :=
  { cexGhMissing with
    branchFile := fun b => if b == cexBranch then some ⟨"QQ==", "sha2"⟩ else none }

set_option maxRecDepth 8192 in
/-- C2 counterexample: in the `apps/generator ` variant the `caseKey` maps a
missing branch file to the `fileDiff-unchanged` arm, so the run with the
file missing is byte-for-byte the same as the run with an identical file —
and neither commits the file. -/
theorem createPr_missing_file_collapsed :
    cexGhMissing.branchFile cexBranch = none ∧
    (∃ f, cexGhIdentical.branchFile cexBranch = some f ∧
      stripNewlines f.content = cexB64) ∧
    createPrRun cexGhMissing (some cexEntry) "t" CacheStrategy.stale 0 =
      createPrRun cexGhIdentical (some cexEntry) "t" CacheStrategy.stale 0 ∧
    PrStep.commitFile cexBranch ∉
      (createPrRun cexGhMissing (some cexEntry) "t" CacheStrategy.stale 0).1 :=
  ⟨rfl, ⟨⟨cexB64, "sha1"⟩, rfl, by decide⟩, rfl, by decide⟩

/-- C2 (amended): the `part_006` variant does realize the full state matrix:
its six caseKeys (three file states times two PR states) are pairwise
distinct, and a branch whose file is missing gets the file committed before
or while a PR is ensured.  In the `apps/generator ` variant, however, the
missing-file state shares its caseKey with the identical-file state (see the
counterexample), so only that variant satisfies the original claim. -/
theorem createPr_state_matrix :
    (∀ p, caseKeyOf false false p = caseKeyOf true true p) ∧
    [p6CaseKey true true true, p6CaseKey true true false,
      p6CaseKey true false true, p6CaseKey true false false,
      p6CaseKey false false true, p6CaseKey false false false].Nodup ∧
    (∀ (gh : GithubState) (bp fp : String) (now : Nat) (info : BranchInfo)
        (rest : List BranchInfo),
      info.branchFileExists = false → gh.putFile info.branch = true →
      PrStep.commitFile info.branch ∈ (p6Loop gh bp fp now (info :: rest)).1) := by
  refine ⟨?_, by decide, ?_⟩
  · intro p; cases p <;> rfl
  · intro gh bp fp now info rest hmiss hput
    cases hpr : info.prExists
    · cases hcp : gh.createPull info.branch <;>
        simp [p6Loop, p6CaseKey, hmiss, hpr, hput, hcp]
    · simp [p6Loop, p6CaseKey, hmiss, hpr, hput]

theorem createPr_state_matrix_witness :
    caseKeyOf false false false = caseKeyOf true true false ∧
    PrStep.commitFile cexBranch ∈
      (p6Loop cexGhMissing "richard/add_t" "apps/www/content/glossary/t.mdx" 0
        [⟨cexBranch, false, false, none, false, none⟩]).1 :=
  ⟨createPr_state_matrix.1 false,
    createPr_state_matrix.2.2 cexGhMissing "richard/add_t"
      "apps/www/content/glossary/t.mdx" 0 ⟨cexBranch, false, false, none, false, none⟩ []
      rfl rfl⟩

lemma selectedCase_createNewBranch (gh : GithubState) (bp fp : String) (now : Nat) :
    selectedCase (createNewBranch gh bp fp now
      [PrStep.readMainFile, PrStep.listBranches]).1 = none := by
  simp only [createNewBranch]
  cases gh.baseRef with
  | none => rfl
  | some sha =>
    cases gh.createRefOk <;>
      cases gh.putFile (bp ++ "_" ++ toString now) <;>
        cases gh.createPull (bp ++ "_" ++ toString now) <;> rfl

lemma selectedCase_handleBranch (gh : GithubState) (cb bp fp branch : String) (now : Nat) :
    selectedCase (handleBranch gh cb bp fp branch now
        [PrStep.readMainFile, PrStep.listBranches]).1 =
      some (caseKeyOf (fileCompare (gh.branchFile branch) cb).present
        (fileCompare (gh.branchFile branch) cb).identical
        (!((gh.prList branch).getD []).isEmpty)) := by
  simp only [handleBranch]
  cases hfc : fileCompare (gh.branchFile branch) cb with
  | mk p i sh =>
    cases hpe : ((gh.prList branch).getD []).isEmpty <;>
      cases p <;> cases i <;>
        first
          | rfl
          | (cases gh.createPull branch <;> rfl)
          | (cases gh.putFile branch <;>
              first
                | rfl
                | (cases gh.createPull branch <;> rfl))

/-- C5 (amended): before deciding, the routine performs four remote reads —
the base-branch file comparison, the branch listing filtered by the
slug-derived branch name, the candidate-branch file comparison and the
open-PR listing for the candidate branch — and the switch case it executes
is a function of exactly those four results plus the cached entry
(`prDecideCase`); the base64 comparison holds exactly when the
newline-stripped base64 of the remote file equals the base64 of the
regenerated MDX.  (The original claim listed only three reads; the
counterexample shows the executed case also depends on the candidate-branch
file read.) -/
theorem createPr_case_function_of_reads :
    (∀ (gh : GithubState) (e : Entry) (input : String)
        (onCacheHit : CacheStrategy) (now : Nat),
      selectedCase (createPrRun gh (some e) input onCacheHit now).1 =
        prDecideCase gh.mainFile (relBranches gh e) gh.branchFile gh.prList e onCacheHit) ∧
    (∀ (file : Option GithubFile) (cb : String),
      (fileCompare file cb).identical = true ↔
        ∃ f, file = some f ∧ stripNewlines f.content = cb) := by
  constructor
  · intro gh e input onCacheHit now
    rw [createPrRun_some]
    unfold prDecideCase
    by_cases hch : prCacheHit e onCacheHit = true
    · simp [hch, selectedCase]
    · simp only [Bool.not_eq_true] at hch
      unfold createPrBody
      simp only [hch, Bool.false_eq_true, if_false]
      by_cases hdyn : optTruthy e.dynamicSectionsContent = true
      · simp only [hdyn, Bool.not_true, Bool.false_eq_true, if_false]
        by_cases htk : e.takeaways.isNone = true
        · simp [htk, selectedCase]
        · simp only [Bool.not_eq_true] at htk
          simp only [htk, Bool.false_eq_true, if_false]
          by_cases hmi : ((fileCompare gh.mainFile (base64String (mdxContent e))).present &&
              (fileCompare gh.mainFile (base64String (mdxContent e))).identical) = true
          · simp [hmi, selectedCase]
          · simp only [Bool.not_eq_true] at hmi
            simp only [hmi, Bool.false_eq_true, if_false]
            cases hbl : gh.branchList with
            | none => simp [relBranches, hbl, selectedCase]
            | some bs =>
              simp only [relBranches, hbl, Option.map_some]
              cases hfl : bs.filter
                  (fun b => strStartsWith b ("richard/add_" ++ githubSlug e.inputTerm)) with
              | nil => simp [hfl, selectedCase_createNewBranch]
              | cons b t => simp [hfl, selectedCase_handleBranch]
      · simp only [Bool.not_eq_true] at hdyn
        simp [hdyn, selectedCase]
  · intro file cb
    cases file with
    | none => simp [fileCompare]
    | some f => simp [fileCompare]

set_option maxRecDepth 8192 in
/-- C5 counterexample: two GitHub states agreeing on the base-branch file,
the branch listing and the PR listing — the three reads named by the claim —
but differing in the candidate-branch file content make the routine execute
different cases, so the executed case is not a function of only those three
results. -/
theorem createPr_case_needs_branch_read :
    cexGhIdentical.mainFile = cexGhDifferent.mainFile ∧
    cexGhIdentical.branchList = cexGhDifferent.branchList ∧
    cexGhIdentical.prList = cexGhDifferent.prList ∧
    selectedCase (createPrRun cexGhIdentical (some cexEntry) "t" CacheStrategy.stale 0).1 ≠
      selectedCase (createPrRun cexGhDifferent (some cexEntry) "t" CacheStrategy.stale 0).1 :=
  ⟨rfl, rfl, rfl, by decide⟩

/-- The slug-derived branch-name stem of a term's entry. -/
def branchPrefOf (e : Entry) : String := "richard/add_" ++ githubSlug e.inputTerm

def filePathOf (e : Entry) : String :=
  "apps/www/content/glossary/" ++ githubSlug e.inputTerm ++ ".mdx"

def newBranchNameOf (e : Entry) (now : Nat) : String :=
  branchPrefOf e ++ "_" ++ toString now

/-- C4 (amended): `createPrTask` is configured with zero retry attempts.
The `apps/generator ` variant (`create-pr.ts`) implements no failure
handling beyond short-circuiting: each of its abort points — missing
entry/content/takeaways, failed branch listing, failed base-ref read,
failed branch creation, failed file create/update and failed PR creation —
terminates the run with an `AbortTaskRunError` (the `.error` result) right
after the failed call, attempting nothing else.  The `part_006` variant
short-circuits the same way for missing preconditions and a failed branch
listing, but a failed file commit or PR creation inside its branch loop
does not abort: the loop moves on to the next relevant branch with only the
failed attempt added to the trace, and an exhausted loop falls back to the
fresh-branch creation path. -/
theorem createPr_abort_on_failure :
    createPrRetryMaxAttempts = 0 ∧
    (∀ gh input onCacheHit now,
      createPrRun gh none input onCacheHit now = ([], .error (noDynMsg input))) ∧
    (∀ (gh : GithubState) (e : Entry) input onCacheHit now,
      prCacheHit e onCacheHit = false →
      optTruthy e.dynamicSectionsContent = false →
      createPrRun gh (some e) input onCacheHit now = ([], .error (noDynMsg input))) ∧
    (∀ (gh : GithubState) (e : Entry) input onCacheHit now,
      prCacheHit e onCacheHit = false →
      optTruthy e.dynamicSectionsContent = true →
      e.takeaways.isNone = true →
      createPrRun gh (some e) input onCacheHit now = ([], .error (noTakeawaysMsg input))) ∧
    (∀ (gh : GithubState) (e : Entry) input onCacheHit now,
      prCacheHit e onCacheHit = false →
      optTruthy e.dynamicSectionsContent = true →
      e.takeaways.isNone = false →
      ((fileCompare gh.mainFile (base64String (mdxContent e))).present &&
        (fileCompare gh.mainFile (base64String (mdxContent e))).identical) = false →
      gh.branchList = none →
      createPrRun gh (some e) input onCacheHit now =
        ([PrStep.readMainFile, PrStep.listBranches], .error "Failed to list branches")) ∧
    (∀ (gh : GithubState) (e : Entry) input onCacheHit now bs,
      prCacheHit e onCacheHit = false →
      optTruthy e.dynamicSectionsContent = true →
      e.takeaways.isNone = false →
      ((fileCompare gh.mainFile (base64String (mdxContent e))).present &&
        (fileCompare gh.mainFile (base64String (mdxContent e))).identical) = false →
      gh.branchList = some bs →
      bs.filter (fun b => strStartsWith b (branchPrefOf e)) = [] →
      gh.baseRef = none →
      createPrRun gh (some e) input onCacheHit now =
        ([PrStep.readMainFile, PrStep.listBranches, PrStep.getBaseRef],
          .error "Failed to get ref for base branch main")) ∧
    (∀ (gh : GithubState) (e : Entry) input onCacheHit now bs sha,
      prCacheHit e onCacheHit = false →
      optTruthy e.dynamicSectionsContent = true →
      e.takeaways.isNone = false →
      ((fileCompare gh.mainFile (base64String (mdxContent e))).present &&
        (fileCompare gh.mainFile (base64String (mdxContent e))).identical) = false →
      gh.branchList = some bs →
      bs.filter (fun b => strStartsWith b (branchPrefOf e)) = [] →
      gh.baseRef = some sha →
      gh.createRefOk = false →
      createPrRun gh (some e) input onCacheHit now =
        ([PrStep.readMainFile, PrStep.listBranches, PrStep.getBaseRef,
            PrStep.createBranch (newBranchNameOf e now)],
          .error ("Failed to create branch " ++ newBranchNameOf e now))) ∧
    (∀ (gh : GithubState) (e : Entry) input onCacheHit now bs sha,
      prCacheHit e onCacheHit = false →
      optTruthy e.dynamicSectionsContent = true →
      e.takeaways.isNone = false →
      ((fileCompare gh.mainFile (base64String (mdxContent e))).present &&
        (fileCompare gh.mainFile (base64String (mdxContent e))).identical) = false →
      gh.branchList = some bs →
      bs.filter (fun b => strStartsWith b (branchPrefOf e)) = [] →
      gh.baseRef = some sha →
      gh.createRefOk = true →
      gh.putFile (newBranchNameOf e now) = false →
      createPrRun gh (some e) input onCacheHit now =
        ([PrStep.readMainFile, PrStep.listBranches, PrStep.getBaseRef,
            PrStep.createBranch (newBranchNameOf e now),
            PrStep.commitFile (newBranchNameOf e now)],
          .error ("Failed to create file " ++ filePathOf e ++ " in branch " ++
            newBranchNameOf e now))) ∧
    (∀ (gh : GithubState) (e : Entry) input onCacheHit now bs sha,
      prCacheHit e onCacheHit = false →
      optTruthy e.dynamicSectionsContent = true →
      e.takeaways.isNone = false →
      ((fileCompare gh.mainFile (base64String (mdxContent e))).present &&
        (fileCompare gh.mainFile (base64String (mdxContent e))).identical) = false →
      gh.branchList = some bs →
      bs.filter (fun b => strStartsWith b (branchPrefOf e)) = [] →
      gh.baseRef = some sha →
      gh.createRefOk = true →
      gh.putFile (newBranchNameOf e now) = true →
      gh.createPull (newBranchNameOf e now) = none →
      createPrRun gh (some e) input onCacheHit now =
        ([PrStep.readMainFile, PrStep.listBranches, PrStep.getBaseRef,
            PrStep.createBranch (newBranchNameOf e now),
            PrStep.commitFile (newBranchNameOf e now),
            PrStep.openPull (newBranchNameOf e now)],
          .error ("Failed to create PR from branch " ++ newBranchNameOf e now))) ∧
    (∀ (gh : GithubState) (e : Entry) input onCacheHit now bs b t sh,
      prCacheHit e onCacheHit = false →
      optTruthy e.dynamicSectionsContent = true →
      e.takeaways.isNone = false →
      ((fileCompare gh.mainFile (base64String (mdxContent e))).present &&
        (fileCompare gh.mainFile (base64String (mdxContent e))).identical) = false →
      gh.branchList = some bs →
      bs.filter (fun b => strStartsWith b (branchPrefOf e)) = b :: t →
      fileCompare (gh.branchFile b) (base64String (mdxContent e)) = ⟨true, true, sh⟩ →
      (gh.prList b).getD [] = [] →
      gh.createPull b = none →
      createPrRun gh (some e) input onCacheHit now =
        ([PrStep.readMainFile, PrStep.listBranches, PrStep.readBranchFile b,
            PrStep.listPulls b, PrStep.logCase (caseKeyOf true true false),
            PrStep.openPull b],
          .error "Failed to create PR for existing branch")) ∧
    (∀ (gh : GithubState) (e : Entry) input onCacheHit now bs b t sh pr prt,
      prCacheHit e onCacheHit = false →
      optTruthy e.dynamicSectionsContent = true →
      e.takeaways.isNone = false →
      ((fileCompare gh.mainFile (base64String (mdxContent e))).present &&
        (fileCompare gh.mainFile (base64String (mdxContent e))).identical) = false →
      gh.branchList = some bs →
      bs.filter (fun b => strStartsWith b (branchPrefOf e)) = b :: t →
      fileCompare (gh.branchFile b) (base64String (mdxContent e)) = ⟨true, false, sh⟩ →
      (gh.prList b).getD [] = pr :: prt →
      gh.putFile b = false →
      createPrRun gh (some e) input onCacheHit now =
        ([PrStep.readMainFile, PrStep.listBranches, PrStep.readBranchFile b,
            PrStep.listPulls b, PrStep.logCase (caseKeyOf true false true),
            PrStep.commitFile b],
          .error "Failed to update file in existing branch")) ∧
    (∀ (gh : GithubState) (e : Entry) input onCacheHit now,
      prCacheHit e onCacheHit = false →
      optTruthy e.dynamicSectionsContent = true →
      e.takeaways.isNone = false →
      ((fileCompare gh.mainFile (base64String (mdxContent e))).present &&
        (fileCompare gh.mainFile (base64String (mdxContent e))).identical) = false →
      gh.branchList = none →
      createPrRunP6 gh (some e) input onCacheHit now =
        ([PrStep.readMainFile, PrStep.listBranches], .error "Failed to list branches")) ∧
    (∀ (gh : GithubState) (bp fp : String) (now : Nat) (info : BranchInfo)
        (rest : List BranchInfo),
      info.branchFileExists = true → info.branchFileIsIdentical = false →
      gh.putFile info.branch = false →
      p6Loop gh bp fp now (info :: rest) =
        ([PrStep.logCase (p6CaseKey true false info.prExists),
            PrStep.commitFile info.branch] ++ (p6Loop gh bp fp now rest).1,
          (p6Loop gh bp fp now rest).2)) ∧
    (∀ (gh : GithubState) (bp fp : String) (now : Nat) (info : BranchInfo)
        (rest : List BranchInfo),
      info.branchFileExists = false →
      gh.putFile info.branch = false →
      p6Loop gh bp fp now (info :: rest) =
        ([PrStep.logCase (p6CaseKey false info.branchFileIsIdentical info.prExists),
            PrStep.commitFile info.branch] ++ (p6Loop gh bp fp now rest).1,
          (p6Loop gh bp fp now rest).2)) ∧
    (∀ (gh : GithubState) (bp fp : String) (now : Nat) (info : BranchInfo)
        (rest : List BranchInfo),
      info.branchFileExists = true → info.branchFileIsIdentical = true →
      info.prExists = false →
      gh.createPull info.branch = none →
      p6Loop gh bp fp now (info :: rest) =
        ([PrStep.logCase (p6CaseKey true true false),
            PrStep.openPull info.branch] ++ (p6Loop gh bp fp now rest).1,
          (p6Loop gh bp fp now rest).2)) ∧
    (∀ (gh : GithubState) (bp fp : String) (now : Nat),
      p6Loop gh bp fp now [] = createNewBranch gh bp fp now []) := by
  refine ⟨rfl, ?_, ?_, ?_, ?_, ?_, ?_, ?_, ?_, ?_, ?_, ?_, ?_, ?_, ?_, ?_⟩
  · intro gh input onCacheHit now; rfl
  · intro gh e input onCacheHit now hch hdyn
    rw [createPrRun_some]
    simp only [hch, Bool.false_eq_true, if_false, createPrBody, hdyn, Bool.not_false, if_pos]
  · intro gh e input onCacheHit now hch hdyn htk
    rw [createPrRun_some]
    simp only [hch, Bool.false_eq_true, if_false, createPrBody, hdyn, Bool.not_true, htk,
      if_pos]
  · intro gh e input onCacheHit now hch hdyn htk hmi hbl
    rw [createPrRun_some]
    simp only [hch, Bool.false_eq_true, if_false, createPrBody, hdyn, Bool.not_true, htk,
      hmi, hbl]
  · intro gh e input onCacheHit now bs hch hdyn htk hmi hbl hfl hbr
    rw [createPrRun_some]
    simp only [hch, Bool.false_eq_true, if_false, createPrBody, hdyn, Bool.not_true, htk,
      hmi, hbl, branchPrefOf] at *
    simp only [hfl, createNewBranch, hbr]
    rfl
  · intro gh e input onCacheHit now bs sha hch hdyn htk hmi hbl hfl hbr hcr
    rw [createPrRun_some]
    simp only [hch, Bool.false_eq_true, if_false, createPrBody, hdyn, Bool.not_true, htk,
      hmi, hbl, branchPrefOf, newBranchNameOf] at *
    simp only [hfl, createNewBranch, hbr, hcr]
    rfl
  · intro gh e input onCacheHit now bs sha hch hdyn htk hmi hbl hfl hbr hcr hpf
    rw [createPrRun_some]
    simp only [hch, Bool.false_eq_true, if_false, createPrBody, hdyn, Bool.not_true, htk,
      hmi, hbl, branchPrefOf, newBranchNameOf, filePathOf] at *
    simp only [hfl, createNewBranch, hbr, hcr, hpf]
    rfl
  · intro gh e input onCacheHit now bs sha hch hdyn htk hmi hbl hfl hbr hcr hpf hcp
    rw [createPrRun_some]
    simp only [hch, Bool.false_eq_true, if_false, createPrBody, hdyn, Bool.not_true, htk,
      hmi, hbl, branchPrefOf, newBranchNameOf] at *
    simp only [hfl, createNewBranch, hbr, hcr, hpf, hcp]
    rfl
  · intro gh e input onCacheHit now bs b t sh hch hdyn htk hmi hbl hfl hfc hpe hcp
    rw [createPrRun_some]
    simp only [hch, Bool.false_eq_true, if_false, createPrBody, hdyn, Bool.not_true, htk,
      hmi, hbl, branchPrefOf] at *
    simp only [hfl, handleBranch, hfc, hpe, hcp]
    rfl
  · intro gh e input onCacheHit now bs b t sh pr prt hch hdyn htk hmi hbl hfl hfc hpe hpf
    rw [createPrRun_some]
    simp only [hch, Bool.false_eq_true, if_false, createPrBody, hdyn, Bool.not_true, htk,
      hmi, hbl, branchPrefOf] at *
    simp only [hfl, handleBranch, hfc, hpe, hpf]
    rfl
  · intro gh e input onCacheHit now hch hdyn htk hmi hbl
    simp only [createPrRunP6, hch, Bool.false_eq_true, if_false, hdyn, Bool.not_true, htk,
      hmi, hbl]
  · intro gh bp fp now info rest hbe hbi hpf
    cases hpr : info.prExists <;>
      simp only [p6Loop, hbe, hbi, hpf, hpr] <;> rfl
  · intro gh bp fp now info rest hbe hpf
    cases hpr : info.prExists <;> cases hbi : info.branchFileIsIdentical <;>
      simp only [p6Loop, hbe, hbi, hpf, hpr] <;> rfl
  · intro gh bp fp now info rest hbe hbi hpr hcp
    simp only [p6Loop, hbe, hbi, hpr, hcp]
    rfl
  · intro gh bp fp now
    rfl

/-- A GitHub state whose branch listing fails. -/
def failGh : GithubState :=
  { mainFile := none, branchList := none, branchFile := fun _ => none,
    prList := fun _ => none, createPull := fun _ => none,
    putFile := fun _ => false, baseRef := none, createRefOk := false }

theorem createPr_abort_on_failure_witness :
    createPrRetryMaxAttempts = 0 ∧
    createPrRun failGh none "t" CacheStrategy.stale 0 = ([], .error (noDynMsg "t")) ∧
    createPrRun failGh (some cexEntry) "t" CacheStrategy.stale 0 =
      ([PrStep.readMainFile, PrStep.listBranches], .error "Failed to list branches") ∧
    p6Loop failGh "richard/add_t" "apps/www/content/glossary/t.mdx" 0
        [⟨cexBranch, true, false, some "sha2", false, none⟩] =
      ([PrStep.logCase (p6CaseKey true false false), PrStep.commitFile cexBranch] ++
          (p6Loop failGh "richard/add_t" "apps/www/content/glossary/t.mdx" 0 []).1,
        (p6Loop failGh "richard/add_t" "apps/www/content/glossary/t.mdx" 0 []).2) :=
  ⟨createPr_abort_on_failure.1,
    createPr_abort_on_failure.2.1 failGh "t" CacheStrategy.stale 0,
    createPr_abort_on_failure.2.2.2.2.1 failGh cexEntry "t" CacheStrategy.stale 0
      rfl rfl rfl rfl rfl,
    createPr_abort_on_failure.2.2.2.2.2.2.2.2.2.2.2.2.1 failGh "richard/add_t"
      "apps/www/content/glossary/t.mdx" 0
      ⟨cexBranch, true, false, some "sha2", false, none⟩ [] rfl rfl rfl⟩

/-- A state for the `part_006` fall-back counterexample: the only relevant
branch holds a different file, updating it fails, and the fresh-branch
creation path succeeds. -/
def p6FailGh : GithubState :=
  { mainFile := none, branchList := some [cexBranch],
    branchFile := fun b => if b == cexBranch then some ⟨"QQ==", "sha2"⟩ else none,
    prList := fun _ => some [],
    createPull := fun _ => some cexPull,
    putFile := fun b => !(b == cexBranch),
    baseRef := some "abc123", createRefOk := true }

set_option maxRecDepth 8192 in
/-- C4 counterexample: in the `part_006` variant a failed file update does
not terminate the run with an `AbortTaskRunError`.  The update to the only
relevant branch fails, yet the run continues past the failure, falls back to
creating the fresh branch `richard/add_t_0` with the file and a PR, and ends
successfully with the new PR URL. -/
theorem createPr_p6_failure_recovers :
    p6FailGh.putFile cexBranch = false ∧
    PrStep.commitFile cexBranch ∈
      (createPrRunP6 p6FailGh (some cexEntry) "t" CacheStrategy.stale 0).1 ∧
    PrStep.createBranch "richard/add_t_0" ∈
      (createPrRunP6 p6FailGh (some cexEntry) "t" CacheStrategy.stale 0).1 ∧
    (createPrRunP6 p6FailGh (some cexEntry) "t" CacheStrategy.stale 0).2 =
      .ok (some "https://example.com/pr/1") :=
  ⟨rfl, by decide, by decide, rfl⟩

end Marketing
